import Mathlib

/-!
Verification of the audit-service messaging ingestion core: the pull-mode
RabbitMQ consumer (message dispatch, reconnect backoff, shutdown), the
push-mode event-handler wrapper, and the database migration runner.
Definitions are a shallow embedding of the TypeScript source: the consume
callback and the reconnect state machine from the RabbitMQ consumer, the
generic event-handler wrapper from the events controller, and the migration
runner.  External libraries (JSON.parse, the SQL engine, SHA-256) are taken as
parameters; the control flow around them is translated statement by statement.
-/

namespace AuditService

/-- A JSON value, the result of successfully parsing a message body.
The handlers treat the parsed event as an arbitrary structured value. -/
inductive Json where
  | null
  | bool (b : Bool)
  | num (n : Int)
  | str (s : String)
  | arr (elems : List Json)
  | obj (fields : List (String × Json))

/-- An HTTP response as produced by the events controller:
res.status(code).json(body). -/
structure HttpResponse where
  statusCode : Nat
  body : String
deriving DecidableEq

/-- Observable side effects of the events-controller handler wrapper:
the processed-message counter bump and logger calls. -/
inductive LogEntry where
  | track
  | debug (message : String)
  | warn (message : String)
  | error (message : String)
deriving DecidableEq

/-- The generic event-handler wrapper `handleEvent(eventName, logFunction)`
from the events controller.  Its body is
`try { trackMessageProcessed(); await logFunction(event);
res.status(200).json(SUCCESS) } catch { logger.error(...);
res.status(200).json(SUCCESS) }`: the catch clause answers success as well, so
the returned computation never rejects.  `logFunction` is the per-event-type
field-mapping body (out of scope business logic), which may throw (modelled by
`Except.error`). -/
def handleEvent (eventName : String) (logFunction : Json → Except String Unit)
    (event : Json) : Except String (HttpResponse × List LogEntry) :=
  match logFunction event with
  | .ok _ => .ok ({ statusCode := 200, body := "SUCCESS" }, [.track])
  | .error _ =>
      .ok ({ statusCode := 200, body := "SUCCESS" },
        [.track, .error ("Error handling " ++ eventName ++ " event")])

/-- The 40 routing keys of the pull-mode topic dispatch table
(the keys of TOPIC_HANDLERS in the RabbitMQ consumer). -/
def auditTopics : List String :=
  ["auth.user.registered", "auth.login", "auth.email.verification.requested",
   "auth.password.reset.requested", "auth.password.reset.completed",
   "auth.account.reactivation.requested",
   "user.created", "user.updated", "user.deleted", "email.verified",
   "password.changed",
   "order.created", "order.cancelled", "order.delivered",
   "payment.received", "payment.failed",
   "product.created", "product.updated", "product.deleted",
   "product.price.changed",
   "cart.item.added", "cart.item.removed", "cart.cleared", "cart.abandoned",
   "inventory.stock.updated", "inventory.restock", "inventory.low.stock.alert",
   "inventory.reserved",
   "review.created", "review.updated", "review.deleted", "review.moderated",
   "review.flagged",
   "notification.sent", "notification.delivered", "notification.failed",
   "notification.opened",
   "admin.action.performed", "admin.user.created", "admin.config.changed"]

/-- The topic dispatch table of the pull-mode consumer.  Each entry wraps the
corresponding events-controller handler (built with `handleEvent`) behind a
mock request/response pair and awaits it, discarding the response.  `logFns`
supplies each entry its field-mapping body; lookup is exact string match and
yields `none` for a routing key outside the table. -/
def TOPIC_HANDLERS (logFns : String → Json → Except String Unit)
    (topic : String) : Option (Json → Except String Unit) :=
  if topic ∈ auditTopics then
    some (fun event => (handleEvent topic (logFns topic) event).map (fun _ => ()))
  else
    none

/-- A raw broker delivery: routing key plus UTF-8 body. -/
structure BrokerMessage where
  routingKey : String
  content : String

/-- The acknowledgment decisions and logger calls of the consume callback. -/
inductive MsgAction where
  | ack
  | nackRequeue
  | track
  | logDebug (operation : String)
  | logWarn (operation : String)
  | logError (operation : String)
deriving DecidableEq

/-- The consume callback registered by `RabbitMQConsumer.subscribe`:
`try { const event = JSON.parse(content); const handler =
TOPIC_HANDLERS[routingKey]; if (handler) { await handler(event);
trackMessageProcessed(); channel.ack(msg); logger.debug(...) } else
{ logger.warn(...); channel.ack(msg) } } catch { logger.error(...);
channel.nack(msg, false, true) }`.  `parse` stands for JSON.parse (throwing
modelled by `Except.error`); the actions are listed in execution order. -/
def consumeMessage (parse : String → Except String Json)
    (handlers : String → Option (Json → Except String Unit))
    (msg : BrokerMessage) : List MsgAction :=
  match parse msg.content with
  | .error _ => [.logError "message_error", .nackRequeue]
  | .ok event =>
      match handlers msg.routingKey with
      | some handler =>
          match handler event with
          | .ok _ => [.track, .ack, .logDebug "message_processed"]
          | .error _ => [.logError "message_error", .nackRequeue]
      | none => [.logWarn "no_handler", .ack]

/-- The mutable fields of the RabbitMQConsumer relevant to connection
lifecycle: whether `this.connection` and `this.channel` hold open handles, and
the `reconnectAttempts` counter. -/
structure RMQState where
  connectionOpen : Bool
  channelOpen : Bool
  reconnectAttempts : Nat
deriving DecidableEq

/-- `private readonly maxReconnectAttempts = 10`. -/
def maxReconnectAttempts : Nat := 10

/-- `private readonly reconnectDelay = 5000`. -/
def reconnectDelay : Nat := 5000

/-- Connection-lifecycle side effects: logger calls, arming a reconnect timer
(setTimeout with the given delay), and process termination.  The source never
emits `processExit`; the constructor exists so that the absence of any
termination step is expressible. -/
inductive ConnEff where
  | logInfo (operation : String)
  | logWarn (operation : String)
  | logError (operation : String)
  | armTimer (delay : Nat)
  | processExit
deriving DecidableEq

/-- `RabbitMQConsumer.handleReconnect` up to the point where the setTimeout
callback is scheduled: if the attempt counter has reached the cap it logs
`Max reconnection attempts reached` (operation reconnect_failed) and returns;
otherwise it increments the counter and arms a timer with delay
`reconnectDelay * 2 ^ (attempt - 1)`. -/
def handleReconnect (s : RMQState) : RMQState × List ConnEff :=
  if s.reconnectAttempts ≥ maxReconnectAttempts then
    (s, [.logError "reconnect_failed"])
  else
    let attempt := s.reconnectAttempts + 1
    ({ s with reconnectAttempts := attempt },
     [.logInfo "reconnect_scheduled",
      .armTimer (reconnectDelay * 2 ^ (attempt - 1))])

/-- The body of the setTimeout callback armed by `handleReconnect`: try
`connect(); subscribe(); reconnectAttempts = 0` and on failure log and call
`handleReconnect` again.  `connectSucceeds` stands for whether the broker is
reachable when the timer fires.  Note the body consults no stopped flag: none
exists in the class. -/
def reconnectTimerBody (connectSucceeds : Bool) (s : RMQState) :
    RMQState × List ConnEff :=
  if connectSucceeds then
    ({ s with connectionOpen := true, channelOpen := true,
              reconnectAttempts := 0 },
     [.logInfo "reconnect_success"])
  else
    let next := handleReconnect s
    (next.1, .logError "reconnect_error" :: next.2)

/-- `RabbitMQConsumer.stop`: closes the channel, then the connection, setting
both fields to null; close-time errors are swallowed.  It cancels no timer and
sets no flag consulted by the reconnect path. -/
def stop (s : RMQState) : RMQState × List ConnEff :=
  ({ s with channelOpen := false, connectionOpen := false },
   [.logInfo "consumer_stop"])

/-- A file of the migrations directory, as seen by fs.readdir/fs.readFile. -/
structure MigrationFile where
  filename : String
  content : String

/-- The `Migration` record built by `getAvailableMigrations` (the directory
prefix of filePath is omitted; only the filename part matters here). -/
structure Migration where
  name : String
  filePath : String
  content : String
  checksum : String
deriving DecidableEq

/-- A row of the migration_history table (id and executed_at timestamp are
server-assigned and not needed by any claim). -/
structure MigrationRecord where
  migration_name : String
  execution_time_ms : Nat
  checksum : String
deriving DecidableEq

/-- The database state the migration runner observes and modifies: whether
migration_history exists, its rows in insertion order, and an abstract schema
(the list of statement batches applied so far, interpreted by the `runSql`
parameter). -/
structure DbState where
  historyTableExists : Bool
  history : List MigrationRecord
  schema : List String
deriving DecidableEq

/-- `basename(file, ".sql")` for a filename already known to end in .sql. -/
def sqlBasename (filename : String) : String := filename.dropRight 4

/-- The `.endsWith(".sql")` filter of getAvailableMigrations: the last four
characters are .sql. -/
def endsWithSql (filename : String) : Bool := filename.takeRight 4 == ".sql"

/-- Lexicographic code-unit comparison of character sequences — the default
string comparison of a JS Array.sort() (code points coincide with UTF-16 code
units for the ASCII filenames involved). -/
def charListLe : List Char → List Char → Bool
  | [], _ => true
  | _ :: _, [] => false
  | a :: as, b :: bs =>
      if a.toNat < b.toNat then true
      else if b.toNat < a.toNat then false
      else charListLe as bs

/-- Lexicographic string comparison, applied to filenames by the sort. -/
def strLe (a b : String) : Bool := charListLe a.data b.data

/-- `DatabaseMigrationRunner.getAvailableMigrations`: keep the .sql files,
sort them lexicographically by filename (this is the execution order;
Array.sort() is a stable comparison sort, rendered here as insertion sort,
which computes the same sorted list for this total order), and build a
Migration per file with its content and content checksum.  `hash` stands for
the SHA-256 used by calculateChecksum. -/
def getAvailableMigrations (hash : String → String)
    (files : List MigrationFile) : List Migration :=
  (List.insertionSort (fun a b => strLe a.filename b.filename = true)
      (files.filter (fun f => endsWithSql f.filename))).map
    (fun f => { name := sqlBasename f.filename, filePath := f.filename,
                content := f.content, checksum := hash f.content })

/-- `getExecutedMigrations`: SELECT from migration_history, or the empty list
when the table does not exist. -/
def getExecutedMigrations (db : DbState) : List MigrationRecord :=
  if db.historyTableExists then db.history else []

/-- `ensureMigrationHistoryTable`: CREATE TABLE IF NOT EXISTS, preserving any
existing rows. -/
def ensureMigrationHistoryTable (db : DbState) : DbState :=
  { db with historyTableExists := true }

/-- The history row inserted for an executed migration. -/
def mkHistoryRecord (elapsed : Nat) (m : Migration) : MigrationRecord :=
  { migration_name := m.name, execution_time_ms := elapsed,
    checksum := m.checksum }

/-- `DatabaseMigrationRunner.executeMigration`: BEGIN; run the migration body;
INSERT the history row; COMMIT — and on any failure ROLLBACK (discarding both
the body effect and the history row) and rethrow.  `runSql` is the SQL engine
applying a migration body to the schema; `elapsed` the measured execution
time.  The second component is the propagated error, if any. -/
def executeMigration (runSql : String → List String → Except String (List String))
    (elapsed : Nat) (m : Migration) (db : DbState) : DbState × Option String :=
  match runSql m.content db.schema with
  | .error e => (db, some e)
  | .ok schema2 =>
      ({ db with schema := schema2,
                 history := db.history ++ [mkHistoryRecord elapsed m] }, none)

/-- The loop of `runMigrations` over the pending migrations: stop at the first
failure and propagate its error. -/
def runPending (runSql : String → List String → Except String (List String))
    (elapsed : Nat) : List Migration → DbState → DbState × Option String
  | [], db => (db, none)
  | m :: rest, db =>
      match executeMigration runSql elapsed m db with
      | (db2, none) => runPending runSql elapsed rest db2
      | (db2, some e) => (db2, some e)

/-- The pending set computed by `runMigrations`: the available migrations
(already in sorted order) whose names are not among the executed names. -/
def pendingMigrations (hash : String → String) (files : List MigrationFile)
    (db : DbState) : List Migration :=
  let executedNames := (getExecutedMigrations db).map
    (fun r => r.migration_name)
  (getAvailableMigrations hash files).filter
    (fun m => !(executedNames.contains m.name))

/-- `DatabaseMigrationRunner.runMigrations`: ensure the history table, compute
the pending migrations, execute them in order, propagating the first
failure. -/
def runMigrations (hash : String → String)
    (runSql : String → List String → Except String (List String))
    (elapsed : Nat) (files : List MigrationFile) (db : DbState) :
    DbState × Option String :=
  let db1 := ensureMigrationHistoryTable db
  runPending runSql elapsed (pendingMigrations hash files db1) db1

/-- The logger calls of `validateMigrations`: a warning per missing file, an
error on the first checksum mismatch, an info line on full success, and the
catch-all failure log. -/
inductive ValidationLog where
  | warnMissing (name : String)
  | errorMismatch (name : String)
  | infoValidated
  | errorFailed
deriving DecidableEq

/-- The loop of `validateMigrations` over the executed records: a record with
no matching file on disk is warned about and skipped; the first checksum
mismatch is logged and makes the whole validation return false; if the loop
completes, validation succeeded. -/
def validateLoop (available : List Migration) :
    List MigrationRecord → Bool × List ValidationLog
  | [] => (true, [.infoValidated])
  | r :: rest =>
      match available.find? (fun m => decide (m.name = r.migration_name)) with
      | none =>
          let res := validateLoop available rest
          (res.1, .warnMissing r.migration_name :: res.2)
      | some m =>
          if m.checksum = r.checksum then
            validateLoop available rest
          else
            (false, [.errorMismatch r.migration_name])

/-- `DatabaseMigrationRunner.validateMigrations`: recompute the checksums of
the on-disk migrations and compare against the recorded ones.  The whole body
sits in a try/catch that logs and returns false, so it never throws;
`filesResult` is the outcome of reading the migrations directory (an error
lands in the catch).  It issues only SELECTs; the final component is the
database state afterwards. -/
def validateMigrations (hash : String → String)
    (filesResult : Except String (List MigrationFile)) (db : DbState) :
    Bool × List ValidationLog × DbState :=
  match filesResult with
  | .error _ => (false, [.errorFailed], db)
  | .ok files =>
      let available := getAvailableMigrations hash files
      let res := validateLoop available (getExecutedMigrations db)
      (res.1, res.2, db)

/-- A recorded migration that `validateMigrations` should report: its file is
missing on disk, or the recomputed checksum differs from the recorded one. -/
def recordDrifted (available : List Migration) (r : MigrationRecord) : Bool :=
  match available.find? (fun m => decide (m.name = r.migration_name)) with
  | none => true
  | some m => m.checksum != r.checksum

/-- Whether a validation log line reports a problem (missing file or checksum
mismatch). -/
def isReportLog : ValidationLog → Bool
  | .warnMissing _ => true
  | .errorMismatch _ => true
  | _ => false

/-- Helper: the wrapper built by `handleEvent` always resolves with a 200
SUCCESS response, whatever the log-mapping body does. -/
theorem handleEvent_isOk (eventName : String)
    (logFunction : Json → Except String Unit) (event : Json) :
    ∃ logs, handleEvent eventName logFunction event =
      .ok ({ statusCode := 200, body := "SUCCESS" }, logs) := by
  unfold handleEvent
  cases logFunction event with
  | ok u => exact ⟨_, rfl⟩
  | error e => exact ⟨_, rfl⟩

/-- Helper: a successful run of the pending loop appends exactly one history
row per pending migration, in order, and leaves the table-existence flag
unchanged. -/
theorem runPending_ok_history
    (runSql : String → List String → Except String (List String))
    (elapsed : Nat) :
    ∀ pending : List Migration, ∀ db db2 : DbState,
      runPending runSql elapsed pending db = (db2, none) →
      db2.history = db.history ++ pending.map (mkHistoryRecord elapsed) ∧
      db2.historyTableExists = db.historyTableExists := by
  intro pending
  induction pending with
  | nil =>
      intro db db2 h
      unfold runPending at h
      cases h
      simp
  | cons m rest ih =>
      intro db db2 h
      unfold runPending executeMigration at h
      cases hrun : runSql m.content db.schema with
      | error e =>
          rw [hrun] at h
          simp at h
      | ok s2 =>
          rw [hrun] at h
          simp only at h
          obtain ⟨h1, h2⟩ := ih _ _ h
          constructor
          · rw [h1]
            simp
          · exact h2

/-- Helper: the code-unit comparison is total. -/
theorem charListLe_total (as : List Char) :
    ∀ bs, charListLe as bs = true ∨ charListLe bs as = true := by
  induction as with
  | nil =>
      intro bs
      left
      rfl
  | cons a as ih =>
      intro bs
      cases bs with
      | nil =>
          right
          rfl
      | cons b bs =>
          unfold charListLe
          by_cases h1 : a.toNat < b.toNat
          · left
            rw [if_pos h1]
          · by_cases h2 : b.toNat < a.toNat
            · right
              rw [if_pos h2]
            · rw [if_neg h1, if_neg h2, if_neg h2, if_neg h1]
              exact ih bs

/-- Helper: the code-unit comparison is transitive. -/
theorem charListLe_trans (as : List Char) :
    ∀ bs cs, charListLe as bs = true → charListLe bs cs = true →
      charListLe as cs = true := by
  induction as with
  | nil =>
      intro bs cs h1 h2
      rfl
  | cons a as ih =>
      intro bs cs h1 h2
      cases bs with
      | nil => simp [charListLe] at h1
      | cons b bs =>
          cases cs with
          | nil => simp [charListLe] at h2
          | cons c cs =>
              unfold charListLe at h1 h2 ⊢
              by_cases hab : a.toNat < b.toNat
              · by_cases hbc : b.toNat < c.toNat
                · rw [if_pos (Nat.lt_trans hab hbc)]
                · rw [if_neg hbc] at h2
                  by_cases hcb : c.toNat < b.toNat
                  · rw [if_pos hcb] at h2
                    exact absurd h2 Bool.false_ne_true
                  · rw [if_pos (by omega : a.toNat < c.toNat)]
              · rw [if_neg hab] at h1
                by_cases hba : b.toNat < a.toNat
                · rw [if_pos hba] at h1
                  exact absurd h1 Bool.false_ne_true
                · rw [if_neg hba] at h1
                  by_cases hbc : b.toNat < c.toNat
                  · rw [if_pos (by omega : a.toNat < c.toNat)]
                  · rw [if_neg hbc] at h2
                    by_cases hcb : c.toNat < b.toNat
                    · rw [if_pos hcb] at h2
                      exact absurd h2 Bool.false_ne_true
                    · rw [if_neg hcb] at h2
                      rw [if_neg (by omega : ¬ a.toNat < c.toNat),
                          if_neg (by omega : ¬ c.toNat < a.toNat)]
                      exact ih bs cs h1 h2

/-- Helper: membership in the pending set means available and not yet
recorded in the executed names. -/
theorem pendingMigrations_mem (hash : String → String)
    (files : List MigrationFile) (db : DbState) (m : Migration) :
    m ∈ pendingMigrations hash files db ↔
      m ∈ getAvailableMigrations hash files ∧
      m.name ∉ (getExecutedMigrations db).map (fun r => r.migration_name) := by
  unfold pendingMigrations
  simp [List.mem_filter, List.contains, List.elem_eq_mem]

/-- Helper: whenever some executed record has drifted (missing file or
checksum mismatch), the validation loop emits at least one report log. -/
theorem validateLoop_reports (available : List Migration) :
    ∀ records : List MigrationRecord, ∀ r ∈ records,
      recordDrifted available r = true →
      ∃ l ∈ (validateLoop available records).2, isReportLog l = true := by
  intro records
  induction records with
  | nil =>
      intro r hr
      cases hr
  | cons r0 rest ih =>
      intro r hr hdrift
      cases hfind : available.find? (fun m => decide (m.name = r0.migration_name)) with
      | none =>
          simp only [validateLoop, hfind]
          exact ⟨.warnMissing r0.migration_name, List.mem_cons_self _ _, rfl⟩
      | some m =>
          by_cases hck : m.checksum = r0.checksum
          · simp only [validateLoop, hfind, if_pos hck]
            rcases List.mem_cons.mp hr with heq | hmem
            · subst heq
              unfold recordDrifted at hdrift
              rw [hfind] at hdrift
              simp [bne] at hdrift
              exact absurd hck hdrift
            · exact ih r hmem hdrift
          · simp only [validateLoop, hfind, if_neg hck]
            exact ⟨.errorMismatch r0.migration_name, List.mem_cons_self _ _, rfl⟩

/-- C1 counterexample: a delivered message whose body fails JSON parsing is
NOT acknowledged: at routing key user.created with an unparseable body, the
consume callback logs an error and negatively acknowledges with requeue; no
ack is issued.  This refutes the claim that a malformed message is
acknowledged and discarded. -/
theorem malformed_message_requeued_counterexample :
    consumeMessage (fun _ => .error "Unexpected token")
        (TOPIC_HANDLERS (fun _ _ => .ok ())) ⟨"user.created", "not-json"⟩ =
      [.logError "message_error", .nackRequeue] ∧
    MsgAction.ack ∉ consumeMessage (fun _ => .error "Unexpected token")
        (TOPIC_HANDLERS (fun _ _ => .ok ())) ⟨"user.created", "not-json"⟩ := by
  constructor
  · rfl
  · decide

/-- C1 (amended): for every delivered message whose body fails to parse as
JSON, the consume callback falls into the catch-all error path: it logs the
failure and negatively acknowledges the message with requeue enabled; it never
acknowledges it. -/
theorem malformed_message_nacked_with_requeue
    (parse : String → Except String Json)
    (handlers : String → Option (Json → Except String Unit))
    (msg : BrokerMessage) (e : String) (h : parse msg.content = .error e) :
    consumeMessage parse handlers msg =
      [.logError "message_error", .nackRequeue] := by
  unfold consumeMessage
  rw [h]

/-- C1 witness: a concrete malformed delivery is nacked with requeue. -/
theorem malformed_message_nacked_with_requeue_witness :
    consumeMessage (fun _ => .error "Unexpected end of JSON input")
        (fun _ => none) ⟨"order.created", "truncated"⟩ =
      [.logError "message_error", .nackRequeue] :=
  malformed_message_nacked_with_requeue
    (fun _ => .error "Unexpected end of JSON input") (fun _ => none)
    ⟨"order.created", "truncated"⟩ "Unexpected end of JSON input" rfl

/-- C2 counterexample: when the attempt counter has reached the cap of 10,
`handleReconnect` emits only an error log and returns: it does not terminate
the consumer (no processExit effect, the connection and channel fields are
left untouched, nothing is closed) and it schedules nothing further. -/
theorem reconnect_cap_not_fatal_counterexample :
    handleReconnect ⟨true, true, 10⟩ =
      (⟨true, true, 10⟩, [.logError "reconnect_failed"]) ∧
    ConnEff.processExit ∉ (handleReconnect ⟨true, true, 10⟩).2 ∧
    (handleReconnect ⟨true, true, 10⟩).1.connectionOpen = true := by
  refine ⟨rfl, ?_, rfl⟩
  decide

/-- C2 (amended): when the number of consecutive reconnection attempts has
reached the cap (maxReconnectAttempts = 10), `handleReconnect` logs
`Max reconnection attempts reached` at error level and gives up: it arms no
further reconnect timer (so it does not retry forever), but it leaves the
consumer object and the process untouched rather than terminating them. -/
theorem reconnect_cap_gives_up (s : RMQState)
    (h : s.reconnectAttempts ≥ maxReconnectAttempts) :
    handleReconnect s = (s, [.logError "reconnect_failed"]) := by
  unfold handleReconnect
  rw [if_pos h]

/-- C2 witness: at exactly 10 recorded attempts the reconnect path gives up
with a single error log. -/
theorem reconnect_cap_gives_up_witness :
    (10 : Nat) ≥ maxReconnectAttempts ∧
    handleReconnect ⟨false, false, 10⟩ =
      (⟨false, false, 10⟩, [.logError "reconnect_failed"]) :=
  ⟨by decide, reconnect_cap_gives_up ⟨false, false, 10⟩ (by decide)⟩

/-- C3: stop() does not disarm a pending reconnect timer.  Starting from a
consumer whose connection dropped (handleReconnect armed a 5000 ms timer),
calling stop() closes channel and connection; when the armed timer then fires
with the broker reachable, its callback still runs connect() and re-opens a
connection and channel — the scheduled reconnect is not a no-op after
shutdown, contradicting the stated cancellation contract. -/
theorem stop_does_not_disarm_reconnect :
    (handleReconnect ⟨true, true, 0⟩).2.contains (.armTimer 5000) = true ∧
    (stop (handleReconnect ⟨true, true, 0⟩).1).1.connectionOpen = false ∧
    (stop (handleReconnect ⟨true, true, 0⟩).1).1.channelOpen = false ∧
    (reconnectTimerBody true
        (stop (handleReconnect ⟨true, true, 0⟩).1).1).1.connectionOpen = true ∧
    (reconnectTimerBody true
        (stop (handleReconnect ⟨true, true, 0⟩).1).1).1.channelOpen = true := by
  decide

/-- C4: while below the cap, each consecutive failure increments the attempt
counter and schedules the next reconnect with delay
`reconnectDelay * 2 ^ (attempt - 1)` for the new attempt number
(attempt = previous counter + 1), and a successful reconnect inside the timer
callback resets the counter to 0. -/
theorem reconnect_backoff_delays (s : RMQState)
    (h : s.reconnectAttempts < maxReconnectAttempts) :
    handleReconnect s =
      ({ s with reconnectAttempts := s.reconnectAttempts + 1 },
       [.logInfo "reconnect_scheduled",
        .armTimer (reconnectDelay * 2 ^ s.reconnectAttempts)]) ∧
    (reconnectTimerBody true (handleReconnect s).1).1.reconnectAttempts = 0 := by
  have hlt : ¬ s.reconnectAttempts ≥ maxReconnectAttempts := Nat.not_le.mpr h
  constructor
  · unfold handleReconnect
    rw [if_neg hlt]
    simp
  · unfold handleReconnect reconnectTimerBody
    rw [if_neg hlt]
    simp

/-- C4 witness: three consecutive failures starting from a fresh counter are
scheduled with delays 5000, 10000, 20000 (base, base*2, base*4), and the
subsequent successful reconnect resets the counter to 0. -/
theorem reconnect_backoff_delays_witness :
    (handleReconnect ⟨false, false, 0⟩).2 =
      [.logInfo "reconnect_scheduled", .armTimer 5000] ∧
    (handleReconnect ⟨false, false, 1⟩).2 =
      [.logInfo "reconnect_scheduled", .armTimer 10000] ∧
    (handleReconnect ⟨false, false, 2⟩).2 =
      [.logInfo "reconnect_scheduled", .armTimer 20000] ∧
    (reconnectTimerBody true (handleReconnect ⟨false, false, 2⟩).1).1.reconnectAttempts = 0 := by
  refine ⟨?_, ?_, ?_, (reconnect_backoff_delays ⟨false, false, 2⟩ (by decide)).2⟩
  · rw [(reconnect_backoff_delays ⟨false, false, 0⟩ (by decide)).1]
    decide
  · rw [(reconnect_backoff_delays ⟨false, false, 1⟩ (by decide)).1]
    decide
  · rw [(reconnect_backoff_delays ⟨false, false, 2⟩ (by decide)).1]
    decide

/-- C5: executeMigration is transactional.  If the migration body fails, the
transaction is rolled back: the database is exactly as before (in particular
no history row for that migration exists afterwards if none existed before)
and the error is propagated, aborting the remaining pending migrations of the
startup run; if the body succeeds, its schema effect and its history row
commit together. -/
theorem executeMigration_transactional
    (runSql : String → List String → Except String (List String))
    (elapsed : Nat) (m : Migration) (db : DbState) :
    (∀ e, runSql m.content db.schema = .error e →
      executeMigration runSql elapsed m db = (db, some e) ∧
      (m.name ∉ db.history.map (fun r => r.migration_name) →
        m.name ∉ (executeMigration runSql elapsed m db).1.history.map
          (fun r => r.migration_name)) ∧
      (∀ rest, runPending runSql elapsed (m :: rest) db = (db, some e))) ∧
    (∀ s2, runSql m.content db.schema = .ok s2 →
      executeMigration runSql elapsed m db =
        ({ db with schema := s2,
                   history := db.history ++ [mkHistoryRecord elapsed m] },
         none)) := by
  constructor
  · intro e he
    have hexec : executeMigration runSql elapsed m db = (db, some e) := by
      unfold executeMigration
      rw [he]
    refine ⟨hexec, ?_, ?_⟩
    · intro hnot
      rw [hexec]
      exact hnot
    · intro rest
      unfold runPending
      rw [hexec]
  · intro s2 hs
    unfold executeMigration
    rw [hs]

/-- C5 witness: a concrete failing migration body leaves the database
untouched, records nothing, and aborts the run with the propagated error. -/
theorem executeMigration_transactional_witness :
    executeMigration (fun _ _ => .error "syntax error") 3
        ⟨"001_init", "001_init.sql", "BAD SQL", "abc"⟩ ⟨true, [], []⟩ =
      (⟨true, [], []⟩, some "syntax error") ∧
    runPending (fun _ _ => .error "syntax error") 3
        [⟨"001_init", "001_init.sql", "BAD SQL", "abc"⟩] ⟨true, [], []⟩ =
      (⟨true, [], []⟩, some "syntax error") := by
  have h := (executeMigration_transactional (fun _ _ => .error "syntax error")
    3 ⟨"001_init", "001_init.sql", "BAD SQL", "abc"⟩ ⟨true, [], []⟩).1
    "syntax error" rfl
  exact ⟨h.1, h.2.2 []⟩

/-- C6: runMigrations is idempotent.  A successful run executes exactly the
available migrations whose names are not yet recorded in the history table
(appending exactly their history rows, in order), the executed sequence is in
lexicographically sorted filename order, and running runMigrations again on
the resulting state executes zero migrations and returns it unchanged. -/
theorem runMigrations_idempotent (hash : String → String)
    (runSql : String → List String → Except String (List String))
    (e1 e2 : Nat) (files : List MigrationFile) (db db2 : DbState)
    (h : runMigrations hash runSql e1 files db = (db2, none)) :
    db2.history = db.history ++
      (pendingMigrations hash files (ensureMigrationHistoryTable db)).map
        (mkHistoryRecord e1) ∧
    List.Pairwise (fun a b => strLe a.filePath b.filePath = true)
      (pendingMigrations hash files (ensureMigrationHistoryTable db)) ∧
    runMigrations hash runSql e2 files db2 = (db2, none) := by
  unfold runMigrations at h
  obtain ⟨hhist, hflag⟩ := runPending_ok_history runSql e1 _ _ _ h
  have hensure_hist : (ensureMigrationHistoryTable db).history = db.history := rfl
  have hflag2 : db2.historyTableExists = true := hflag
  have hens2 : ensureMigrationHistoryTable db2 = db2 := by
    have h2 := hflag2
    obtain ⟨flag, hist, schema⟩ := db2
    simp only at h2
    subst h2
    rfl
  refine ⟨by rw [hhist, hensure_hist], ?_, ?_⟩
  · -- sortedness: the insertion sort yields a pairwise-ordered file list and
    -- the map and filter building the pending list preserve that order
    unfold pendingMigrations getAvailableMigrations
    apply List.Pairwise.filter
    rw [List.pairwise_map]
    haveI hto : IsTotal MigrationFile
        (fun a b => strLe a.filename b.filename = true) :=
      ⟨fun a b => charListLe_total a.filename.data b.filename.data⟩
    haveI htr : IsTrans MigrationFile
        (fun a b => strLe a.filename b.filename = true) :=
      ⟨fun a b c => charListLe_trans a.filename.data b.filename.data
        c.filename.data⟩
    exact List.sorted_insertionSort
      (fun a b : MigrationFile => strLe a.filename b.filename = true)
      (files.filter (fun f => endsWithSql f.filename))
  · -- second run: every available name is now recorded, so nothing is pending
    have hexec2 : getExecutedMigrations db2 = db2.history := by
      unfold getExecutedMigrations
      rw [hflag2]
      simp
    have hempty : pendingMigrations hash files db2 = [] := by
      rw [List.eq_nil_iff_forall_not_mem]
      intro m hm
      rw [pendingMigrations_mem] at hm
      obtain ⟨hav, hnot⟩ := hm
      apply hnot
      rw [hexec2, hhist, hensure_hist, List.map_append]
      by_cases hold : m.name ∈ db.history.map (fun r => r.migration_name)
      · exact List.mem_append_left _ hold
      · apply List.mem_append_right
        have hpend : m ∈ pendingMigrations hash files
            (ensureMigrationHistoryTable db) := by
          rw [pendingMigrations_mem]
          exact ⟨hav, hold⟩
        rw [List.map_map]
        exact List.mem_map.mpr ⟨m, hpend, rfl⟩
    unfold runMigrations
    rw [hens2]
    show runPending runSql e2 (pendingMigrations hash files db2) db2 = (db2, none)
    rw [hempty]
    rfl

/-- C6 witness: a concrete successful run records its one migration, and the
immediate second run applies nothing and leaves the history identical. -/
theorem runMigrations_idempotent_witness :
    runMigrations (fun s => s) (fun _ sc => .ok ("applied" :: sc)) 7
        [⟨"001_init.sql", "CREATE TABLE audit_logs"⟩] ⟨false, [], []⟩ =
      (⟨true, [⟨"001_init", 7, "CREATE TABLE audit_logs"⟩], ["applied"]⟩, none) ∧
    runMigrations (fun s => s) (fun _ sc => .ok ("applied" :: sc)) 7
        [⟨"001_init.sql", "CREATE TABLE audit_logs"⟩]
        ⟨true, [⟨"001_init", 7, "CREATE TABLE audit_logs"⟩], ["applied"]⟩ =
      (⟨true, [⟨"001_init", 7, "CREATE TABLE audit_logs"⟩], ["applied"]⟩, none) := by
  have h1 : runMigrations (fun s => s) (fun _ sc => .ok ("applied" :: sc)) 7
      [⟨"001_init.sql", "CREATE TABLE audit_logs"⟩] ⟨false, [], []⟩ =
      (⟨true, [⟨"001_init", 7, "CREATE TABLE audit_logs"⟩], ["applied"]⟩, none) := by
    decide
  exact ⟨h1, (runMigrations_idempotent (fun s => s)
    (fun _ sc => .ok ("applied" :: sc)) 7 7
    [⟨"001_init.sql", "CREATE TABLE audit_logs"⟩] ⟨false, [], []⟩ _ h1).2.2⟩

/-- C7: validateMigrations never throws and never writes: it is a total
function returning a verdict and logs (a failure reading the migrations
directory lands in its catch clause and yields the failure verdict), it
leaves the database state exactly as it was, and whenever some executed
record has drifted — its file is missing on disk or its recorded checksum
differs from the recomputed one — it emits a report log (a warning or an
error) rather than raising. -/
theorem validateMigrations_reports_without_writing (hash : String → String)
    (filesResult : Except String (List MigrationFile)) (db : DbState) :
    (validateMigrations hash filesResult db).2.2 = db ∧
    (∀ files, filesResult = .ok files →
      ∀ r ∈ getExecutedMigrations db,
        recordDrifted (getAvailableMigrations hash files) r = true →
        ∃ l ∈ (validateMigrations hash filesResult db).2.1,
          isReportLog l = true) := by
  constructor
  · cases filesResult with
    | error e => rfl
    | ok files => rfl
  · intro files hfiles r hr hdrift
    subst hfiles
    unfold validateMigrations
    exact validateLoop_reports (getAvailableMigrations hash files)
      (getExecutedMigrations db) r hr hdrift

/-- C7 witness: with one executed record whose on-disk body was altered (the
recomputed checksum differs), validateMigrations leaves the database
unchanged and emits a mismatch report. -/
theorem validateMigrations_reports_without_writing_witness :
    (validateMigrations (fun s => s)
        (.ok [⟨"001_init.sql", "CREATE TABLE audit_logs"⟩])
        ⟨true, [⟨"001_init", 5, "original checksum"⟩], []⟩).2.2 =
      ⟨true, [⟨"001_init", 5, "original checksum"⟩], []⟩ ∧
    ∃ l ∈ (validateMigrations (fun s => s)
        (.ok [⟨"001_init.sql", "CREATE TABLE audit_logs"⟩])
        ⟨true, [⟨"001_init", 5, "original checksum"⟩], []⟩).2.1,
      isReportLog l = true := by
  have h := validateMigrations_reports_without_writing (fun s => s)
    (.ok [⟨"001_init.sql", "CREATE TABLE audit_logs"⟩])
    ⟨true, [⟨"001_init", 5, "original checksum"⟩], []⟩
  exact ⟨h.1, h.2 [⟨"001_init.sql", "CREATE TABLE audit_logs"⟩] rfl
    ⟨"001_init", 5, "original checksum"⟩ (by decide) (by decide)⟩

/-- C8: a delivered message whose body parses but whose routing key has no
entry in the topic dispatch table is acknowledged anyway, after a warning log;
in particular it is never negatively acknowledged, so an unknown topic cannot
cause a redelivery loop. -/
theorem unknown_topic_acked (parse : String → Except String Json)
    (logFns : String → Json → Except String Unit)
    (msg : BrokerMessage) (event : Json)
    (hparse : parse msg.content = .ok event)
    (hmiss : msg.routingKey ∉ auditTopics) :
    consumeMessage parse (TOPIC_HANDLERS logFns) msg =
      [.logWarn "no_handler", .ack] ∧
    MsgAction.nackRequeue ∉ consumeMessage parse (TOPIC_HANDLERS logFns) msg := by
  have hnone : TOPIC_HANDLERS logFns msg.routingKey = none := by
    unfold TOPIC_HANDLERS
    simp [hmiss]
  have hmain : consumeMessage parse (TOPIC_HANDLERS logFns) msg =
      [.logWarn "no_handler", .ack] := by
    unfold consumeMessage
    rw [hparse, hnone]
  refine ⟨hmain, ?_⟩
  rw [hmain]
  decide

/-- C8 witness: a concrete delivery on an unregistered routing key is
acknowledged with a warning. -/
theorem unknown_topic_acked_witness :
    consumeMessage (fun _ => .ok .null) (TOPIC_HANDLERS (fun _ _ => .ok ()))
        ⟨"unknown.topic", "x"⟩ = [.logWarn "no_handler", .ack] :=
  (unknown_topic_acked (fun _ => .ok .null) (fun _ _ => .ok ())
    ⟨"unknown.topic", "x"⟩ .null rfl (by decide)).1

/-- C9: the push-mode handler wrapper answers status 200 with body SUCCESS on
every outcome.  When the internal log-mapping body succeeds it answers
success; when it throws, the catch clause logs the failure and still answers
the same 200 SUCCESS response, so an internal failure is never surfaced to
the producer as a delivery failure. -/
theorem handleEvent_always_success (eventName : String)
    (logFunction : Json → Except String Unit) (event : Json) :
    (∀ u, logFunction event = .ok u →
      handleEvent eventName logFunction event =
        .ok ({ statusCode := 200, body := "SUCCESS" }, [.track])) ∧
    (∀ e, logFunction event = .error e →
      handleEvent eventName logFunction event =
        .ok ({ statusCode := 200, body := "SUCCESS" },
          [.track, .error ("Error handling " ++ eventName ++ " event")])) ∧
    (∃ logs, handleEvent eventName logFunction event =
      .ok ({ statusCode := 200, body := "SUCCESS" }, logs)) := by
  refine ⟨?_, ?_, ?_⟩
  · intro u h
    unfold handleEvent
    rw [h]
  · intro e h
    unfold handleEvent
    rw [h]
  · unfold handleEvent
    cases logFunction event with
    | ok u => exact ⟨_, rfl⟩
    | error e => exact ⟨_, rfl⟩

/-- C9 witness: a concrete handler whose internal body throws still answers
200 SUCCESS, with the failure logged. -/
theorem handleEvent_always_success_witness :
    handleEvent "user.created" (fun _ => .error "db down") .null =
      .ok ({ statusCode := 200, body := "SUCCESS" },
        [.track, .error ("Error handling " ++ "user.created" ++ " event")]) :=
  (handleEvent_always_success "user.created" (fun _ => .error "db down")
    .null).2.1 "db down" rfl

/-- C10: every handler in the pull-mode dispatch table is a wrapper that
resolves successfully on every input (its internal errors are caught by the
handleEvent try/catch), so for a delivered message whose body parses and whose
routing key is in the table, the consume callback always reaches the
acknowledge branch; the nack-with-requeue branch is unreachable. -/
theorem known_topic_never_requeued
    (logFns : String → Json → Except String Unit)
    (parse : String → Except String Json)
    (msg : BrokerMessage) (event : Json)
    (hparse : parse msg.content = .ok event)
    (htopic : msg.routingKey ∈ auditTopics) :
    (∃ handler, TOPIC_HANDLERS logFns msg.routingKey = some handler ∧
      handler event = .ok ()) ∧
    consumeMessage parse (TOPIC_HANDLERS logFns) msg =
      [.track, .ack, .logDebug "message_processed"] := by
  have hsome : TOPIC_HANDLERS logFns msg.routingKey =
      some (fun event =>
        (handleEvent msg.routingKey (logFns msg.routingKey) event).map
          (fun _ => ())) := by
    unfold TOPIC_HANDLERS
    simp [htopic]
  obtain ⟨logs, hok⟩ :=
    handleEvent_isOk msg.routingKey (logFns msg.routingKey) event
  have hrun : (handleEvent msg.routingKey (logFns msg.routingKey) event).map
      (fun _ => ()) = Except.ok () := by
    rw [hok]
    rfl
  refine ⟨⟨_, hsome, hrun⟩, ?_⟩
  unfold consumeMessage
  rw [hparse, hsome]
  simp only [hrun]

/-- C10 witness: a concrete known-topic delivery whose internal body throws is
still acknowledged, never requeued. -/
theorem known_topic_never_requeued_witness :
    consumeMessage (fun _ => .ok .null)
        (TOPIC_HANDLERS (fun _ _ => .error "handler crash"))
        ⟨"payment.failed", "x"⟩ =
      [.track, .ack, .logDebug "message_processed"] :=
  (known_topic_never_requeued (fun _ _ => .error "handler crash")
    (fun _ => .ok .null) ⟨"payment.failed", "x"⟩ .null rfl (by decide)).2

end AuditService
